import Mathlib

/-!
# Verification of the pinboard-bridge gateway (`src/unnamed/part_001`)

A shallow embedding of the core logic of the pinboard-bridge server:
credential resolution (`applyAuthContext`), the SSRF guard
(`isPrivateHostname`), preview-metadata extraction
(`extractPreviewMetadata`), the enrichment orchestrator
(`/posts/suggest-with-preview`) and the forwarding path (`/v1/*`).

JavaScript strings are embedded as `List Char`; the handful of platform
functions the code relies on (`String.prototype.split`, `net.isIP`,
`Number`, the WHATWG `URL` class, base64 decoding) are modelled as
executable Lean functions on `List Char`, each marked with a comment
naming the platform function it models.
-/

namespace PB

/-- Abbreviation: the characters of a Lean string literal, used to write
JavaScript string constants. -/
def cs (s : String) : List Char := s.data

/-! ## Generic string helpers (models of JS built-ins) -/

/-- Boolean "p is a prefix of s" on character lists. -/
def hasPref : List Char → List Char → Bool
  | [], _ => true
  | _ :: _, [] => false
  | p :: ps, c :: rest => p = c && hasPref ps rest

/-- Boolean "p is a suffix of s" on character lists.
Models `String.prototype.endsWith`. -/
def hasSuf (p s : List Char) : Bool := hasPref p.reverse s.reverse

/-- Boolean "p occurs inside s" on character lists.
Models `String.prototype.includes`. -/
def occursIn (p : List Char) : List Char → Bool
  | [] => hasPref p []
  | c :: rest => hasPref p (c :: rest) || occursIn p rest

/-- Models `String.prototype.toLowerCase` (ASCII range). -/
def jsToLower (s : List Char) : List Char := s.map Char.toLower

/-- Models `String.prototype.split(sep)` for a one-character separator:
`"".split(".") = [""]`, `"a.".split(".") = ["a", ""]`. -/
def splitOnChar (sep : Char) : List Char → List (List Char)
  | [] => [[]]
  | c :: rest =>
    if c = sep then [] :: splitOnChar sep rest
    else
      match splitOnChar sep rest with
      | [] => [[c]]
      | p :: ps => (c :: p) :: ps

/-- JS whitespace characters matched by `\s` (ASCII portion; the rarely
used Unicode space characters are not modelled). -/
def jsWhitespace (c : Char) : Bool :=
  c = ' ' || c = '\t' || c = '\n' || c = '\r' || c = '\x0b' || c = '\x0c'

/-- JS line terminators, which `.` in a regex does not match. -/
def isLineTerm (c : Char) : Bool := c = '\n' || c = '\r'

/-- Models `String.prototype.trim` (ASCII whitespace). -/
def jsTrim (s : List Char) : List Char :=
  ((s.dropWhile jsWhitespace).reverse.dropWhile jsWhitespace).reverse

/-- JS `a || b` for strings: the empty string is falsy. -/
def jsOrS (a b : List Char) : List Char := if a = [] then b else a

/-- JS `a || b` where `a`, `b` are string-or-null values. -/
def jsOrO (a b : Option (List Char)) : Option (List Char) :=
  match a with
  | some v => some v
  | none => b

/-! ## Decimal digits

The JS code converts IPv4 octet substrings with `Number(...)`; witnesses
quantify over octet values, so we need an executable decimal printer
(fuel-based so that it reduces in the kernel) and its parse inverse. -/

/-- Models `Number(s)` on a string of decimal digits (the only shape the
source applies it to, since `net.isIP` has validated the string). -/
def parseDec (s : List Char) : Nat :=
  s.foldl (fun a c => a * 10 + (c.toNat - 48)) 0

def decDigitsAux : Nat → Nat → List Char
  | 0, _ => []
  | fuel + 1, n =>
    if n < 10 then [Nat.digitChar n]
    else decDigitsAux fuel (n / 10) ++ [Nat.digitChar (n % 10)]

/-- The standard decimal representation of a natural number (no leading
zeros), e.g. `decDigits 127 = ['1','2','7']`. -/
def decDigits (n : Nat) : List Char := decDigitsAux (n + 1) n

/-- The dotted-quad literal `a.b.c.d`. -/
def ipv4Lit (a b c d : Nat) : List Char :=
  decDigits a ++ '.' :: (decDigits b ++ '.' :: (decDigits c ++ '.' :: decDigits d))

/-! ## `net.isIP` model -/

/-- One octet substring of a dotted-quad per Node's `net.isIPv4`:
non-empty decimal digits, no leading zero, value at most 255. -/
def ipv4PartOk (p : List Char) : Bool :=
  p ≠ [] && p.all Char.isDigit &&
    (p.length = 1 || p.headD ' ' ≠ '0') && parseDec p ≤ 255

/-- Models Node's `net.isIPv4`. -/
def isIPv4 (s : List Char) : Bool :=
  let parts := splitOnChar '.' s
  parts.length = 4 && parts.all ipv4PartOk

def isHexDigitChar (c : Char) : Bool :=
  c.isDigit || ('a' ≤ c && c ≤ 'f') || ('A' ≤ c && c ≤ 'F')

/-- A 16-bit group of an IPv6 literal: one to four hex digits. -/
def isHexGroup (g : List Char) : Bool :=
  g ≠ [] && g.length ≤ 4 && g.all isHexDigitChar

/-- Split a string at the first occurrence of `::`, if any. -/
def splitDoubleColon : List Char → Option (List Char × List Char)
  | [] => none
  | [_] => none
  | c :: rest =>
    if c = ':' ∧ rest.headD ' ' = ':' then some ([], rest.tail)
    else (splitDoubleColon rest).map (fun pr => (c :: pr.1, pr.2))

/-- Models Node's `net.isIPv6` on the standard IPv6 text grammar:
colon-separated hex groups, at most one `::` compression standing for at
least one group, and an optional embedded IPv4 tail counting as two
groups. -/
def isIPv6 (s : List Char) : Bool :=
  match splitDoubleColon s with
  | none =>
    let parts := splitOnChar ':' s
    if parts.length < 2 then false
    else
      match parts.getLast? with
      | none => false
      | some last =>
        if last.contains '.' then
          isIPv4 last && parts.length = 7 && parts.dropLast.all isHexGroup
        else
          parts.length = 8 && parts.all isHexGroup
  | some (l, r) =>
    if (splitDoubleColon r).isSome then false
    else
      let lparts := if l = [] then [] else splitOnChar ':' l
      let rparts := if r = [] then [] else splitOnChar ':' r
      match rparts.getLast? with
      | none => lparts.all isHexGroup && lparts.length ≤ 7
      | some last =>
        if last.contains '.' then
          isIPv4 last && lparts.all isHexGroup && rparts.dropLast.all isHexGroup &&
            lparts.length + (rparts.length - 1) + 2 ≤ 7
        else
          lparts.all isHexGroup && rparts.all isHexGroup &&
            lparts.length + rparts.length ≤ 7

/-- Models Node's `net.isIP`: `4` for IPv4 literals, `6` for IPv6
literals, `0` otherwise. -/
def netIsIP (s : List Char) : Nat :=
  if isIPv4 s then 4 else if isIPv6 s then 6 else 0

/-! ## SSRF guard (`isPrivateHostname`, part_001 lines 176-200) -/

/-- The private-range tests on the parsed octet values, from
`isPrivateHostname`'s IPv4 branch.  JS indexes `octets[0]`/`octets[1]`;
`net.isIP = 4` guarantees four octets, and the `getD` default `0`
matches JS `undefined` comparisons (all comparisons are against nonzero
values). -/
def ipv4PrivateOctets (octets : List Nat) : Bool :=
  let a := octets.getD 0 0
  let b := octets.getD 1 0
  a = 10 || a = 127 || (a = 192 && b = 168) ||
    (a = 172 && 16 ≤ b && b ≤ 31) || (a = 169 && b = 254)

/-- Embedding of `isPrivateHostname` (part_001 lines 176-200).  The JS
`!hostname` test is true for the empty string and for an absent
(undefined/null) hostname; both are represented by `[]`. -/
def isPrivateHostname (h : List Char) : Bool :=
  if h = [] then true
  else
    let lower := jsToLower h
    if lower = cs "localhost" || hasSuf (cs ".localhost") lower then true
    else
      let v := netIsIP h
      if v = 4 && ipv4PrivateOctets ((splitOnChar '.' h).map parseDec) then true
      else if v = 6 &&
          (lower = cs "::1" || hasPref (cs "fc") lower || hasPref (cs "fd") lower) then true
      else false

/-! ## Query parameters (model of `URLSearchParams` as an ordered list) -/

/-- An ordered multimap of query parameters, as held by a
`URLSearchParams` object. -/
abbrev QP := List (List Char × List Char)

/-- Models `URLSearchParams.delete(k)`: removes every pair with key `k`. -/
def deleteKey (k : List Char) (qp : QP) : QP := qp.filter (fun p => p.1 ≠ k)

/-- Models `URLSearchParams.set(k, v)`: replaces the first pair with key
`k` (dropping any later ones), or appends if the key is absent. -/
def setKey (k v : List Char) : QP → QP
  | [] => [(k, v)]
  | (k', v') :: rest =>
    if k' = k then (k, v) :: deleteKey k rest
    else (k', v') :: setKey k v rest

/-! ## Credential resolution (`applyAuthContext`, part_001 lines 124-174) -/

/-- The three failure modes of credential resolution.  The spec names
them `MissingCredential`, `MalformedBasicCredential` and
`MalformedBearerCredential`. -/
inductive AuthError where
  | missing
  | malformedBasic
  | malformedBearer
deriving DecidableEq

/-- The `Error` message thrown by `applyAuthContext` for each failure;
the routes surface it as a 401 JSON body `{error: <message>}`. -/
def authErrorMessage : AuthError → List Char
  | .missing => cs "Authorization header required"
  | .malformedBasic => cs "Invalid Basic authorization header"
  | .malformedBearer => cs "Invalid Bearer authorization header"

/-- How the translated credential is attached to the outbound request:
transport-level basic auth, or a token placed in the outbound query. -/
inductive Cred where
  | basicAuth (username password : List Char)
  | tokenInQuery
deriving DecidableEq

/-- The value returned by `applyAuthContext` on success. -/
structure AuthCtx where
  cred : Cred
  identity : List Char
deriving DecidableEq

/-- Models `header.match(/^<scheme>\s+(.+)$/i)`, returning the capture.
`scheme` is given in lower case.  The regex requires the scheme word at
the start (case-insensitive), at least one whitespace character, and a
non-empty remainder free of line terminators (`.` does not match them);
when the remainder is all whitespace, backtracking lets `(.+)` capture
exactly the final whitespace character provided at least one whitespace
character is left for `\s+`. -/
def schemePayload (scheme header : List Char) : Option (List Char) :=
  if hasPref scheme (jsToLower header) then
    let rest := header.drop scheme.length
    match rest with
    | [] => none
    | c :: _ =>
      if jsWhitespace c then
        let t := rest.dropWhile jsWhitespace
        if t ≠ [] then
          if t.any isLineTerm then none else some t
        else
          if 2 ≤ rest.length && !isLineTerm (rest.getLastD ' ') then
            some [rest.getLastD ' ']
          else none
      else none
  else none

/-- Base64 value of one alphabet character.  Characters outside the
alphabet (including `=` padding) are ignored, as Node's forgiving
decoder does. -/
def b64Val (c : Char) : Option Nat :=
  if 'A' ≤ c && c ≤ 'Z' then some (c.toNat - 65)
  else if 'a' ≤ c && c ≤ 'z' then some (c.toNat - 71)
  else if '0' ≤ c && c ≤ '9' then some (c.toNat + 4)
  else if c = '+' then some 62
  else if c = '/' then some 63
  else none

/-- Reassemble 6-bit groups into bytes. -/
def b64Bytes : List Nat → List Nat
  | a :: b :: c :: d :: rest =>
    (a * 4 + b / 16) :: ((b % 16) * 16 + c / 4) :: ((c % 4) * 64 + d) :: b64Bytes rest
  | [a, b] => [a * 4 + b / 16]
  | [a, b, c] => [a * 4 + b / 16, (b % 16) * 16 + c / 4]
  | _ => []

/-- Models `Buffer.from(s, 'base64').toString()` (byte-to-character
step is exact for the ASCII payloads credentials consist of). -/
def b64Decode (s : List Char) : List Char :=
  (b64Bytes (s.filterMap b64Val)).map Char.ofNat

/-- Embedding of `decodeBasicCredentials` (part_001 lines 124-134):
split the decoded payload at the first `:`; no `:` yields two empty
strings. -/
def decodeBasicCredentials (encoded : List Char) : List Char × List Char :=
  let decoded := b64Decode encoded
  match splitDoubleAt decoded with
  | none => ([], [])
  | some (u, p) => (u, p)
where
  /-- split at the first ':' (models `indexOf`/`slice`) -/
  splitDoubleAt : List Char → Option (List Char × List Char)
    | [] => none
    | c :: rest =>
      if c = ':' then some ([], rest)
      else (splitDoubleAt rest).map (fun pr => (c :: pr.1, pr.2))

/-- The part of `applyAuthContext` that runs after the unconditional
`queryParams.delete('auth_token')` sanitation step (part_001 lines
141-173).  Returns the final outbound query parameters together with
the resolution result. -/
def authResolve (header : List Char) (qp : QP) : QP × Except AuthError AuthCtx :=
  match schemePayload (cs "basic") header with
  | some encoded =>
    let up := decodeBasicCredentials encoded
    if up.1 = [] ∨ up.2 = [] then (qp, .error .malformedBasic)
    else (qp, .ok ⟨.basicAuth up.1 up.2, up.1⟩)
  | none =>
    match schemePayload (cs "bearer") header with
    | some raw =>
      let authToken := jsTrim raw
      if !authToken.contains ':' then (qp, .error .malformedBearer)
      else
        (setKey (cs "auth_token") authToken qp,
         .ok ⟨.tokenInQuery, jsOrS ((splitOnChar ':' authToken).headD []) (cs "token")⟩)
    | none => (qp, .error .missing)

/-- Embedding of `applyAuthContext` (part_001 lines 136-174): first the
unconditional removal of any inbound legacy `auth_token` query
parameter, then scheme dispatch. -/
def applyAuthContext (header : List Char) (qp : QP) : QP × Except AuthError AuthCtx :=
  authResolve header (deleteKey (cs "auth_token") qp)

/-! ## WHATWG `URL` model

Models `new URL(...)` on the hierarchical `scheme://host[:port]path`
fragment the source exercises (http/https targets and page-relative
references).  Bracketed IPv6 hosts, userinfo, and dot-segment
normalization are not modelled; empty hosts are parse failures, as in
the WHATWG parser for special schemes. -/

structure URLRec where
  scheme : List Char
  host : List Char
  port : Option (List Char)
  path : List Char
deriving DecidableEq

/-- Models `url.protocol` (scheme with trailing colon). -/
def urlProtocol (u : URLRec) : List Char := u.scheme ++ [':']

def isSchemeChar (c : Char) : Bool :=
  c.isAlpha || c.isDigit || c = '+' || c = '-' || c = '.'

/-- Models `new URL(s)` (absolute parse only). -/
def parseURL (s : List Char) : Option URLRec :=
  match s with
  | [] => none
  | c :: _ =>
    if !c.isAlpha then none
    else
      let scheme := s.takeWhile isSchemeChar
      match s.drop scheme.length with
      | ':' :: '/' :: '/' :: tail =>
        let authority := tail.takeWhile (fun c => c ≠ '/' && c ≠ '?' && c ≠ '#')
        let path := tail.drop authority.length
        if authority = [] || authority.contains '[' || authority.contains '@' then none
        else
          let host := authority.takeWhile (· ≠ ':')
          if host = [] then none
          else
            match authority.drop host.length with
            | [] => some ⟨jsToLower scheme, jsToLower host, none, path⟩
            | _ :: ps =>
              if ps.all Char.isDigit then
                some ⟨jsToLower scheme, jsToLower host,
                      if ps = [] then none else some ps, path⟩
              else none
      | _ => none

/-- Models `URL.prototype.toString` on the parsed record (path defaults
to `/`). -/
def serializeURL (u : URLRec) : List Char :=
  u.scheme ++ cs "://" ++ u.host ++
    (match u.port with
     | some p => ':' :: p
     | none => []) ++
    (if u.path = [] then cs "/" else u.path)

/-- Keep the base path up to and including its last `/` (for resolving
a path-relative reference). -/
def dirOfPath (p : List Char) : List Char :=
  ((p.reverse.dropWhile (· ≠ '/'))).reverse

/-- Resolve a non-absolute reference `v` against a parsed base. -/
def resolveRelative (b : URLRec) (v : List Char) : Option (List Char) :=
  if hasPref (cs "//") v then
    (parseURL (b.scheme ++ ':' :: v)).map serializeURL
  else if hasPref (cs "/") v then
    some (serializeURL ⟨b.scheme, b.host, b.port, v⟩)
  else if hasPref (cs "?") v then
    some (serializeURL ⟨b.scheme, b.host, b.port, (b.path.takeWhile (· ≠ '?')) ++ v⟩)
  else
    let dir := dirOfPath (b.path.takeWhile (· ≠ '?'))
    some (serializeURL ⟨b.scheme, b.host, b.port,
      (if dir = [] then cs "/" else dir) ++ v⟩)

/-- Models `new URL(v, base).toString()`, where `base = []` stands for
an absent base (`undefined`). -/
def jsNewURL (v base : List Char) : Option (List Char) :=
  match parseURL v with
  | some u => some (serializeURL u)
  | none =>
    if base = [] then none
    else
      match parseURL base with
      | none => none
      | some b => resolveRelative b v

/-- Embedding of `resolveAbsoluteUrl` (part_001 lines 202-209): `null`
or empty values resolve to `null`, as does any parse failure. -/
def resolveAbsoluteUrl (baseUrl : List Char) (value : Option (List Char)) :
    Option (List Char) :=
  match value with
  | none => none
  | some v => if v = [] then none else jsNewURL v baseUrl

/-- Embedding of `deriveSiteDomain` (part_001 lines 211-218): hostname
of the parsed URL with a leading `www.` stripped (the parser has
already lowercased the host, so the case-insensitive `replace` reduces
to a plain strip). -/
def deriveSiteDomain (urlString : List Char) : Option (List Char) :=
  (parseURL urlString).map (fun r =>
    if hasPref (cs "www.") r.host then r.host.drop 4 else r.host)

/-! ## Metadata extraction (`extractPreviewMetadata`, part_001 lines 220-343)

The HTML document is embedded post-parse: a cheerio-loaded document is
a list of elements in document order, each with a tag name, attributes
and text content.  The CSS selectors the source uses are embedded as an
inductive type, mirroring `pickMetaValue`'s dispatch on the selector
string's `meta`/`link` prefix. -/

structure Elem where
  tag : List Char
  attrs : List (List Char × List Char)
  text : List Char
deriving DecidableEq

/-- A parsed HTML document: elements in document order. -/
abbrev Doc := List Elem

/-- Models cheerio's `element.attr(name)`. -/
def getAttr (e : Elem) (name : List Char) : Option (List Char) :=
  (e.attrs.find? (fun a => a.1 = name)).map (fun a => a.2)

/-- The selector shapes used by the source. -/
inductive Sel where
  | metaName (v : List Char)
  | metaProp (v : List Char)
  | linkRel (rel : List Char) (typ : Option (List Char))
  | titleTag
deriving DecidableEq

/-- CSS matching for the selector shapes above (attribute values match
exactly, as in CSS attribute selectors). -/
def selMatches (e : Elem) : Sel → Bool
  | .metaName v => e.tag = cs "meta" && getAttr e (cs "name") = some v
  | .metaProp v => e.tag = cs "meta" && getAttr e (cs "property") = some v
  | .linkRel r t =>
    e.tag = cs "link" && getAttr e (cs "rel") = some r &&
      (match t with
       | none => true
       | some ty => getAttr e (cs "type") = some ty)
  | .titleTag => e.tag = cs "title"

/-- Whether the selector string starts with `meta` / `link`
(`pickMetaValue` dispatches on this). -/
def isMetaSel : Sel → Bool
  | .metaName _ => true
  | .metaProp _ => true
  | _ => false

def isLinkSel : Sel → Bool
  | .linkRel _ _ => true
  | _ => false

/-- The selector string rebuilt, for the `source?.includes('twitter')`
test on `pickMetaValueWithSource` results. -/
def selString : Sel → List Char
  | .metaName v => cs "meta[name=" ++ v ++ cs "]"
  | .metaProp v => cs "meta[property=" ++ v ++ cs "]"
  | .linkRel r t =>
    cs "link[rel=" ++ r ++ cs "]" ++
      (match t with
       | none => []
       | some ty => cs "[type=" ++ ty ++ cs "]")
  | .titleTag => cs "title"

/-- The attribute-preference loop of `pickMetaValue`: first listed
attribute that is present with a non-empty trimmed value. -/
def firstAttrHit (e : Elem) : List (List Char) → Option (List Char)
  | [] => none
  | a :: rest =>
    match getAttr e a with
    | some v => if jsTrim v ≠ [] then some (jsTrim v) else firstAttrHit e rest
    | none => firstAttrHit e rest

/-- Embedding of `pickMetaValue` (part_001 lines 220-242): first
matching element; `meta` selectors read the preferred attributes and
fall through to the text fallback, `link` selectors return the trimmed
`href` or null, anything else the trimmed text. -/
def pickMetaValue (doc : Doc) (sel : Sel) (prefs : List (List Char)) :
    Option (List Char) :=
  match doc.find? (fun e => selMatches e sel) with
  | none => none
  | some e =>
    if isMetaSel sel then
      match firstAttrHit e prefs with
      | some r => some r
      | none => if jsTrim e.text ≠ [] then some (jsTrim e.text) else none
    else if isLinkSel sel then
      match getAttr e (cs "href") with
      | some v => if jsTrim v ≠ [] then some (jsTrim v) else none
      | none => none
    else
      if jsTrim e.text ≠ [] then some (jsTrim e.text) else none

/-- The default `attributePreference` of `pickMetaValue`. -/
def defaultPrefs : List (List Char) := [cs "content", cs "value", cs "href"]

/-- Embedding of `pickMetaValueWithSource` (part_001 lines 244-252). -/
def pickMetaValueWithSource (doc : Doc) : List Sel → Option (List Char) × Option Sel
  | [] => (none, none)
  | sel :: rest =>
    match pickMetaValue doc sel defaultPrefs with
    | some v => (some v, some sel)
    | none => pickMetaValueWithSource doc rest

/-- Embedding of `FAVICON_SELECTORS` (part_001 lines 254-262). -/
def FAVICON_SELECTORS : List Sel :=
  [.linkRel (cs "apple-touch-icon") none,
   .linkRel (cs "apple-touch-icon-precomposed") none,
   .linkRel (cs "icon") (some (cs "image/png")),
   .linkRel (cs "icon") (some (cs "image/svg+xml")),
   .linkRel (cs "mask-icon") none,
   .linkRel (cs "icon") none,
   .linkRel (cs "shortcut icon") none]

/-- Embedding of `selectFavicon` (part_001 lines 264-272). -/
def selectFavicon (doc : Doc) : Option (List Char) :=
  go FAVICON_SELECTORS
where
  go : List Sel → Option (List Char)
    | [] => none
    | sel :: rest =>
      match pickMetaValue doc sel [cs "href"] with
      | some href => some href
      | none => go rest

/-- The title fallback chain of `extractPreviewMetadata`. -/
def titleOf (doc : Doc) : Option (List Char) :=
  jsOrO (pickMetaValue doc (.metaName (cs "twitter:title")) defaultPrefs)
    (jsOrO (pickMetaValue doc (.metaProp (cs "og:title")) defaultPrefs)
      (jsOrO (pickMetaValue doc (.metaName (cs "title")) defaultPrefs)
        (pickMetaValue doc .titleTag defaultPrefs)))

/-- The description fallback chain. -/
def descriptionOf (doc : Doc) : Option (List Char) :=
  jsOrO (pickMetaValue doc (.metaName (cs "twitter:description")) defaultPrefs)
    (jsOrO (pickMetaValue doc (.metaProp (cs "og:description")) defaultPrefs)
      (pickMetaValue doc (.metaName (cs "description")) defaultPrefs))

/-- The raw (pre-resolution) image fallback chain. -/
def rawImageOf (doc : Doc) : Option (List Char) :=
  jsOrO (pickMetaValue doc (.metaName (cs "twitter:image")) defaultPrefs)
    (jsOrO (pickMetaValue doc (.metaName (cs "twitter:image:src")) defaultPrefs)
      (pickMetaValue doc (.metaProp (cs "og:image")) defaultPrefs))

/-- The canonical-URL fallback chain (link canonical, Open-Graph URL,
social-card URL). -/
def canonicalChainOf (doc : Doc) : Option (List Char) :=
  jsOrO (pickMetaValue doc (.linkRel (cs "canonical") none) defaultPrefs)
    (jsOrO (pickMetaValue doc (.metaProp (cs "og:url")) defaultPrefs)
      (pickMetaValue doc (.metaName (cs "twitter:url")) defaultPrefs))

/-- Embedding of `canonicalUrl` as computed in `extractPreviewMetadata` line 313:
the resolved chain value, else the final fetch URL, else the original
URL. -/
def canonicalUrlOf (doc : Doc) (finalUrl originalUrl : List Char) : List Char :=
  match resolveAbsoluteUrl finalUrl (canonicalChainOf doc) with
  | some u => u
  | none => jsOrS finalUrl originalUrl

/-- Embedding of `imageUrl` as computed at line 314: the raw image reference
resolved against the canonical URL. -/
def imageUrlOf (doc : Doc) (finalUrl originalUrl : List Char) : Option (List Char) :=
  resolveAbsoluteUrl (canonicalUrlOf doc finalUrl originalUrl) (rawImageOf doc)

/-- The normalized extraction result (the object literal at part_001
lines 328-342). -/
structure PreviewRecord where
  url : List Char
  title : Option (List Char)
  description : Option (List Char)
  imageUrl : Option (List Char)
  siteName : Option (List Char)
  siteHandle : Option (List Char)
  siteHandleUrl : Option (List Char)
  siteDomain : Option (List Char)
  cardType : Option (List Char)
  themeColor : Option (List Char)
  faviconUrl : Option (List Char)
  fetchedAt : List Char
  status : List Char
deriving DecidableEq

/-- Strip one leading `@` (models `replace(/^@/, '')`). -/
def stripLeadingAt (s : List Char) : List Char :=
  match s with
  | '@' :: rest => rest
  | _ => s

/-- Embedding of `extractPreviewMetadata` (part_001 lines 274-343).
`finalUrl`/`originalUrl` are the fetch URLs ( `[]` for an absent
value); `now` stands for `new Date().toISOString()`, which is the only
impure input. -/
def extractPreviewMetadata (doc : Doc) (finalUrl originalUrl now : List Char) :
    Option PreviewRecord :=
  let title := titleOf doc
  let description := descriptionOf doc
  let siteName :=
    jsOrO (pickMetaValue doc (.metaProp (cs "og:site_name")) defaultPrefs)
      (pickMetaValue doc (.metaName (cs "application-name")) defaultPrefs)
  let handleC := pickMetaValueWithSource doc
    [.metaName (cs "twitter:site"), .metaName (cs "twitter:creator")]
  let siteHandle := handleC.1
  let siteHandleUrl :=
    match siteHandle, handleC.2 with
    | some h, some src =>
      if occursIn (cs "twitter") (selString src) then
        let normalized := jsTrim (stripLeadingAt h)
        if normalized ≠ [] then some (cs "https://twitter.com/" ++ normalized)
        else none
      else none
    | _, _ => none
  let cardType := pickMetaValue doc (.metaName (cs "twitter:card")) defaultPrefs
  let canonicalUrl := canonicalUrlOf doc finalUrl originalUrl
  let imageUrl := imageUrlOf doc finalUrl originalUrl
  let siteDomain := deriveSiteDomain (jsOrS canonicalUrl originalUrl)
  let themeColor :=
    jsOrO (pickMetaValue doc (.metaName (cs "theme-color")) defaultPrefs)
      (jsOrO (pickMetaValue doc (.metaName (cs "msapplication-TileColor")) defaultPrefs)
        (pickMetaValue doc (.metaName (cs "msapplication-navbutton-color")) defaultPrefs))
  let rawFavicon := selectFavicon doc
  let faviconUrl :=
    resolveAbsoluteUrl (jsOrS canonicalUrl (jsOrS finalUrl originalUrl)) rawFavicon
  if title = none ∧ description = none ∧ imageUrl = none then none
  else
    some ⟨canonicalUrl, title, description, imageUrl, siteName, siteHandle,
          siteHandleUrl, siteDomain, cardType, themeColor, faviconUrl, now,
          cs "fresh"⟩

/-! ## JSON values and HTTP responses -/

/-- JSON-ish values as JS sees them (axios response `data`, response
bodies). -/
inductive Json where
  | null
  | bool (b : Bool)
  | num (n : Int)
  | str (s : List Char)
  | arr (elems : List Json)
  | obj (fields : List (List Char × Json))

/-- JS truthiness of a value. -/
def jsTruthy : Json → Bool
  | .null => false
  | .bool b => b
  | .num n => n ≠ 0
  | .str s => s ≠ []
  | .arr _ => true
  | .obj _ => true

/-- Models `typeof v === 'object'` (true for objects, arrays and null). -/
def jsTypeofObject : Json → Bool
  | .obj _ => true
  | .arr _ => true
  | .null => true
  | _ => false

/-- Models `v?.error`: optional-chaining field access. -/
def jsonErrorField : Json → Option Json
  | .obj fields => (fields.find? (fun f => f.1 = cs "error")).map (fun f => f.2)
  | _ => none

/-- The body `{error: <message>}`. -/
def errObj (msg : List Char) : Json := .obj [(cs "error", .str msg)]

/-- The upstream failure message extraction both routes share
(`typeof data === 'string' ? data : data?.error || 'API request
failed'`, part_001 lines 422-424 and 511-513). -/
def upstreamErrJson (data : Json) : Json :=
  match data with
  | .str s => .str s
  | _ =>
    match jsonErrorField data with
    | some v => if jsTruthy v then v else .str "API request failed".data
    | none => .str "API request failed".data

/-- The merged payload of a successful enrichment response (the object
built at part_001 lines 447-455). -/
structure EnrichPayload where
  suggestions : Json
  preview : Option PreviewRecord
  previewStatus : List Char
  previewError : Option (List Char)

/-- An HTTP response as the handlers produce it: `json` is
`res.json(v)`, `send` is `res.send(v)` (the verbatim relay), `enrich`
is `res.json(payload)` for the merged enrichment payload. -/
inductive RespBody where
  | json (v : Json)
  | send (v : Json)
  | enrich (p : EnrichPayload)

structure Response where
  status : Nat
  body : RespBody

/-! ## The axios call model -/

/-- What the upstream service does for one request: respond with a
status and body, time out (axios error code `ECONNABORTED`), or fail at
the transport level. -/
inductive UpstreamBehavior where
  | responds (status : Nat) (data : Json)
  | timesOut
  | netFails (msg : List Char)

/-- An axios rejection reason. -/
inductive AxiosError where
  | httpResponse (status : Nat) (data : Json)
  | timeout
  | netOther (msg : List Char)

/-- A settled axios promise.  Axios' default `validateStatus` fulfills
exactly the 2xx statuses and rejects the rest with `error.response`
carrying the upstream status and body. -/
inductive SettledSuggest where
  | fulfilled (data : Json)
  | rejected (e : AxiosError)

/-- Models `axios.get` followed by `Promise.allSettled`'s view of it. -/
def settleUpstream : UpstreamBehavior → SettledSuggest
  | .responds s d =>
    if 200 ≤ s ∧ s < 300 then .fulfilled d else .rejected (.httpResponse s d)
  | .timesOut => .rejected .timeout
  | .netFails m => .rejected (.netOther m)

/-- A settled preview fetch: fulfilled with the extraction result
(`none` is the extractor's no-data case), or rejected with an optional
error message (`reason?.message`). -/
inductive PreviewOutcome where
  | fulfilled (p : Option PreviewRecord)
  | rejected (message : Option (List Char))

/-! ## Enrichment orchestrator (`/posts/suggest-with-preview`,
part_001 lines 379-465) -/

/-- The merge step of the orchestrator (part_001 lines 418-460): a
rejected suggestion call is fatal and maps to an upstream-error
response; otherwise the preview outcome is folded into the payload. -/
def mergeResults (sres : SettledSuggest) (pres : PreviewOutcome) : Response :=
  match sres with
  | .rejected e =>
    match e with
    | .httpResponse s d => ⟨s, .json (.obj [(cs "error", upstreamErrJson d)])⟩
    | .timeout => ⟨504, .json (errObj (cs "Gateway timeout"))⟩
    | .netOther _ => ⟨500, .json (errObj (cs "Internal server error"))⟩
  | .fulfilled data =>
    match pres with
    | .fulfilled p =>
      let previewStatus :=
        match p with
        | some rec => jsOrS rec.status (cs "fresh")
        | none => cs "no_data"
      ⟨200, .enrich ⟨data, p, previewStatus, none⟩⟩
    | .rejected message =>
      let previewError :=
        match message with
        | some m => jsOrS m (cs "Failed to fetch preview metadata")
        | none => cs "Failed to fetch preview metadata"
      ⟨200, .enrich ⟨data, none, cs "error", some previewError⟩⟩

/-- An Express query value: a string or an array of strings. -/
inductive QVal where
  | str (v : List Char)
  | list (vs : List (List Char))

/-- The request data the suggest-with-preview route reads. -/
structure SuggestReq where
  urlParam : Option QVal
  authHeader : List Char

/-- Models `Array.isArray(req.query.url) ? req.query.url[0] : req.query.url`
(part_001 line 381). -/
def getTargetUrl (req : SuggestReq) : Option (List Char) :=
  match req.urlParam with
  | none => none
  | some (.str v) => some v
  | some (.list vs) => vs.head?

/-- The data assembled by a passing validation phase: the validated
target, the outbound suggestion query and the resolved credentials. -/
structure DispatchPlan where
  target : URLRec
  params : QP
  ctx : AuthCtx

/-- The SSRF gate of the route (part_001 lines 397-399). -/
def hostGuard (rec : URLRec) : Option Response :=
  if isPrivateHostname rec.host then
    some ⟨400, .json (errObj (cs "URL host is not reachable from the proxy"))⟩
  else none

/-- The `Validating` phase of the suggest-with-preview route (part_001
lines 381-413): target extraction, URL parse, scheme check, SSRF guard,
credential resolution.  An `error` result is a terminal early response
issued before any outbound fetch is started. -/
def suggestValidate (req : SuggestReq) : Except Response DispatchPlan :=
  match getTargetUrl req with
  | none => .error ⟨400, .json (errObj (cs "url query parameter is required"))⟩
  | some t =>
    if t = [] then .error ⟨400, .json (errObj (cs "url query parameter is required"))⟩
    else
      match parseURL t with
      | none => .error ⟨400, .json (errObj (cs "Invalid url parameter"))⟩
      | some rec =>
        if ¬(urlProtocol rec = cs "http:" ∨ urlProtocol rec = cs "https:") then
          .error ⟨400, .json (errObj (cs "URL must use http or https"))⟩
        else
          match hostGuard rec with
          | some r => .error r
          | none =>
            let params := setKey (cs "format") (cs "json")
              (setKey (cs "url") (serializeURL rec) [])
            match applyAuthContext req.authHeader params with
            | (_, .error e) => .error ⟨401, .json (errObj (authErrorMessage e))⟩
            | (params', .ok ctx) => .ok ⟨rec, params', ctx⟩

/-- The whole suggest-with-preview route: if validation fails, its
early response is the response and no fetch happens; otherwise the
suggestion call and preview fetch settle (`Promise.allSettled`) with
the given outcomes and are merged. -/
def suggestHandler (req : SuggestReq) (sb : UpstreamBehavior)
    (pb : PreviewOutcome) : Response :=
  match suggestValidate req with
  | .error r => r
  | .ok _ => mergeResults (settleUpstream sb) pb

/-! ## Forwarding path (`/v1/*`, part_001 lines 468-527) -/

/-- Embedding of `buildSearchParams` (part_001 lines 109-122): flatten
the Express query object into ordered key/value pairs, expanding
arrays. -/
def buildSearchParams (query : List (List Char × QVal)) : QP :=
  query.flatMap (fun kv =>
    match kv.2 with
    | .str v => [(kv.1, v)]
    | .list vs => vs.map (fun v => (kv.1, v)))

/-- Models `req.query['format'] === 'json'` (part_001 line 495). -/
def formatIsJson (query : List (List Char × QVal)) : Bool :=
  match query.find? (fun kv => kv.1 = cs "format") with
  | some (_, .str v) => v = cs "json"
  | _ => false

/-- Embedding of the `/v1/*` route (part_001 lines 468-527).
`xmlConv` is the external XML-to-JSON collaborator (`XMLParser.parse`),
`none` standing for a parse exception; it is also applied to non-string
payloads, where the collaborator throws (hence `none`). -/
def v1Handler (query : List (List Char × QVal)) (header _path : List Char)
    (b : UpstreamBehavior) (xmlConv : List Char → Option Json) : Response :=
  match applyAuthContext header (buildSearchParams query) with
  | (_, .error e) => ⟨401, .json (errObj (authErrorMessage e))⟩
  | (_, .ok _) =>
    match b with
    | .timesOut => ⟨504, .json (errObj (cs "Gateway timeout"))⟩
    | .netFails _ => ⟨500, .json (errObj (cs "Internal server error"))⟩
    | .responds status data =>
      if ¬(200 ≤ status ∧ status < 300) then
        ⟨status, .json (.obj [(cs "error", upstreamErrJson data)])⟩
      else if status ≠ 200 then ⟨status, .send data⟩
      else if formatIsJson query || jsTypeofObject data then ⟨200, .json data⟩
      else
        match data with
        | .str s =>
          (match xmlConv s with
           | some j => ⟨200, .json j⟩
           | none => ⟨500, .json (errObj (cs "Failed to parse XML response"))⟩)
        | _ => ⟨500, .json (errObj (cs "Failed to parse XML response"))⟩

/-- Whether a string can be written `l ++ ':' ++ r` with both `l` and
`r` non-empty — "has a separator character splitting it into a
non-empty identity and a non-empty secret portion". -/
def properColonSplit (p : List Char) : Bool :=
  (List.range p.length).any (fun i => p.getD i ' ' = ':' && decide (1 ≤ i) && decide (i + 1 < p.length))

/-! ## Concrete specimen documents used by the extraction claims -/

/-- The one-element document `<meta property="og:title" content="X">`. -/
def ogTitleOnlyDoc : Doc :=
  [⟨cs "meta", [(cs "property", cs "og:title"), (cs "content", cs "X")], []⟩]

/-- A document with a relative `<link rel=canonical>` plus a title. -/
def canonLinkDoc : Doc :=
  [⟨cs "link", [(cs "rel", cs "canonical"), (cs "href", cs "/canon")], []⟩,
   ⟨cs "meta", [(cs "property", cs "og:title"), (cs "content", cs "X")], []⟩]

/-- A document with an Open-Graph URL meta (no canonical link) plus a
title. -/
def ogUrlDoc : Doc :=
  [⟨cs "meta", [(cs "property", cs "og:url"), (cs "content", cs "/og")], []⟩,
   ⟨cs "meta", [(cs "property", cs "og:title"), (cs "content", cs "X")], []⟩]

/-- A document with a social-card URL meta only, plus a title. -/
def twitterUrlDoc : Doc :=
  [⟨cs "meta", [(cs "name", cs "twitter:url"), (cs "content", cs "/tw")], []⟩,
   ⟨cs "meta", [(cs "property", cs "og:title"), (cs "content", cs "X")], []⟩]

/-! # Supporting lemmas -/

theorem hasPref_mem {p s : List Char} (h : hasPref p s = true) :
    ∀ c ∈ p, c ∈ s := by
  induction p generalizing s with
  | nil => intro c hc; cases hc
  | cons a p ih =>
    cases s with
    | nil => simp [hasPref] at h
    | cons b s =>
      simp only [hasPref, Bool.and_eq_true, decide_eq_true_eq] at h
      intro c hc
      rcases List.mem_cons.mp hc with rfl | hc
      · exact h.1 ▸ List.mem_cons_self _ _
      · exact List.mem_cons_of_mem _ (ih h.2 c hc)

theorem hasSuf_mem {p s : List Char} (h : hasSuf p s = true) :
    ∀ c ∈ p, c ∈ s := by
  intro c hc
  have := hasPref_mem h c (List.mem_reverse.mpr hc)
  exact List.mem_reverse.mp this

theorem decDigitsAux_irrel : ∀ (n f₁ f₂ : Nat), n < f₁ → n < f₂ →
    decDigitsAux f₁ n = decDigitsAux f₂ n := by
  intro n
  induction n using Nat.strong_induction_on with
  | _ n ih =>
    intro f₁ f₂ h1 h2
    cases f₁ with
    | zero => omega
    | succ f =>
      cases f₂ with
      | zero => omega
      | succ g =>
        show decDigitsAux (f + 1) n = decDigitsAux (g + 1) n
        simp only [decDigitsAux]
        by_cases hn : n < 10
        · simp [hn]
        · have hd : n / 10 < n := Nat.div_lt_self (by omega) (by omega)
          simp only [hn, if_false]
          rw [ih (n / 10) hd f g (by omega) (by omega)]

/-- The recursion equation for `decDigits`. -/
theorem decDigits_eq (n : Nat) :
    decDigits n =
      if n < 10 then [Nat.digitChar n]
      else decDigits (n / 10) ++ [Nat.digitChar (n % 10)] := by
  show decDigitsAux (n + 1) n = _
  simp only [decDigitsAux]
  by_cases hn : n < 10
  · simp [hn]
  · have hd : n / 10 < n := Nat.div_lt_self (by omega) (by omega)
    simp only [hn, if_false]
    rw [decDigitsAux_irrel (n / 10) n (n / 10 + 1) (by omega) (by omega)]
    rfl

theorem decDigits_ne_nil (n : Nat) : decDigits n ≠ [] := by
  rw [decDigits_eq]
  by_cases hn : n < 10 <;> simp [hn]

theorem mem_decDigits {c : Char} : ∀ {n : Nat}, c ∈ decDigits n →
    ∃ k, k < 10 ∧ c = Nat.digitChar k := by
  intro n
  induction n using Nat.strong_induction_on with
  | _ n ih =>
    rw [decDigits_eq]
    by_cases hn : n < 10
    · simp only [hn, if_true, List.mem_singleton]
      intro hc; exact ⟨n, hn, hc⟩
    · simp only [hn, if_false, List.mem_append, List.mem_singleton]
      intro hc
      rcases hc with hc | hc
      · exact ih (n / 10) (Nat.div_lt_self (by omega) (by omega)) hc
      · exact ⟨n % 10, Nat.mod_lt _ (by omega), hc⟩

theorem digitChar_isDigit {k : Nat} (h : k < 10) :
    (Nat.digitChar k).isDigit = true := by
  interval_cases k <;> decide

theorem digitChar_toNat {k : Nat} (h : k < 10) :
    (Nat.digitChar k).toNat - 48 = k := by
  interval_cases k <;> decide

theorem digitChar_toLower {k : Nat} (h : k < 10) :
    (Nat.digitChar k).toLower = Nat.digitChar k := by
  interval_cases k <;> decide

theorem digitChar_ne_zero {k : Nat} (h1 : 1 ≤ k) (h2 : k < 10) :
    Nat.digitChar k ≠ '0' := by
  interval_cases k <;> decide

theorem digitChar_ne_dot {k : Nat} (h : k < 10) : Nat.digitChar k ≠ '.' := by
  interval_cases k <;> decide

theorem parseDec_append_digit (l : List Char) (c : Char) :
    parseDec (l ++ [c]) = parseDec l * 10 + (c.toNat - 48) := by
  simp [parseDec, List.foldl_append]

theorem parseDec_decDigits : ∀ n : Nat, parseDec (decDigits n) = n := by
  intro n
  induction n using Nat.strong_induction_on with
  | _ n ih =>
    rw [decDigits_eq]
    by_cases hn : n < 10
    · simp only [hn, if_true]
      show parseDec ([] ++ [Nat.digitChar n]) = n
      rw [parseDec_append_digit]
      simp [parseDec, digitChar_toNat hn]
    · simp only [hn, if_false]
      rw [parseDec_append_digit,
          ih (n / 10) (Nat.div_lt_self (by omega) (by omega)),
          digitChar_toNat (Nat.mod_lt _ (by omega))]
      omega

theorem decDigits_headD_ne_zero : ∀ {n : Nat}, 1 ≤ n →
    (decDigits n).headD ' ' ≠ '0' := by
  intro n
  induction n using Nat.strong_induction_on with
  | _ n ih =>
    intro h1
    rw [decDigits_eq]
    by_cases hn : n < 10
    · simpa [hn] using digitChar_ne_zero h1 hn
    · have hne := decDigits_ne_nil (n / 10)
      have : 1 ≤ n / 10 := Nat.le_div_iff_mul_le (by omega) |>.mpr (by omega)
      have ihx := ih (n / 10) (Nat.div_lt_self (by omega) (by omega)) this
      simp only [hn, if_false]
      cases hd : decDigits (n / 10) with
      | nil => exact absurd hd hne
      | cons a l => rw [hd] at ihx; simpa using ihx

theorem ipv4PartOk_decDigits {n : Nat} (h : n ≤ 255) :
    ipv4PartOk (decDigits n) = true := by
  simp only [ipv4PartOk, Bool.and_eq_true, decide_eq_true_eq]
  refine ⟨⟨⟨by simpa using decDigits_ne_nil n, ?_⟩, ?_⟩, ?_⟩
  · rw [List.all_eq_true]
    intro c hc
    obtain ⟨k, hk, rfl⟩ := mem_decDigits hc
    exact digitChar_isDigit hk
  · by_cases h0 : n = 0
    · subst h0
      simp [show decDigits 0 = ['0'] from by rw [decDigits_eq]; rfl]
    · have := decDigits_headD_ne_zero (n := n) (by omega)
      simp only [Bool.or_eq_true, decide_eq_true_eq]
      exact Or.inr this
  · rw [parseDec_decDigits]; exact h

theorem splitOnChar_no_sep {sep : Char} : ∀ {l : List Char},
    (∀ c ∈ l, c ≠ sep) → splitOnChar sep l = [l] := by
  intro l
  induction l with
  | nil => intro _; rfl
  | cons a l ih =>
    intro h
    have ha : a ≠ sep := h a (List.mem_cons_self _ _)
    simp only [splitOnChar, ha, if_false]
    rw [ih (fun c hc => h c (List.mem_cons_of_mem _ hc))]

theorem splitOnChar_append {sep : Char} : ∀ {l rest : List Char},
    (∀ c ∈ l, c ≠ sep) →
    splitOnChar sep (l ++ sep :: rest) = l :: splitOnChar sep rest := by
  intro l rest
  induction l with
  | nil => intro _; simp [splitOnChar]
  | cons a l ih =>
    intro h
    have ha : a ≠ sep := h a (List.mem_cons_self _ _)
    have ihh := ih (fun c hc => h c (List.mem_cons_of_mem _ hc))
    simp only [List.cons_append, splitOnChar, ha, if_false, List.append_eq]
    rw [ihh]

theorem dot_not_mem_decDigits {n : Nat} : ∀ c ∈ decDigits n, c ≠ '.' := by
  intro c hc
  obtain ⟨k, hk, rfl⟩ := mem_decDigits hc
  exact digitChar_ne_dot hk

theorem splitOnChar_ipv4Lit (a b c d : Nat) :
    splitOnChar '.' (ipv4Lit a b c d) =
      [decDigits a, decDigits b, decDigits c, decDigits d] := by
  unfold ipv4Lit
  rw [splitOnChar_append dot_not_mem_decDigits,
      splitOnChar_append dot_not_mem_decDigits,
      splitOnChar_append dot_not_mem_decDigits,
      splitOnChar_no_sep dot_not_mem_decDigits]

theorem isIPv4_ipv4Lit {a b c d : Nat}
    (ha : a ≤ 255) (hb : b ≤ 255) (hc : c ≤ 255) (hd : d ≤ 255) :
    isIPv4 (ipv4Lit a b c d) = true := by
  simp only [isIPv4, splitOnChar_ipv4Lit]
  simp [ipv4PartOk_decDigits ha, ipv4PartOk_decDigits hb,
        ipv4PartOk_decDigits hc, ipv4PartOk_decDigits hd]

theorem mem_ipv4Lit {a b c d : Nat} {x : Char} (hx : x ∈ ipv4Lit a b c d) :
    x = '.' ∨ ∃ k, k < 10 ∧ x = Nat.digitChar k := by
  unfold ipv4Lit at hx
  simp only [List.mem_append, List.mem_cons] at hx
  rcases hx with h | h | h | h | h | h | h
  · exact Or.inr (mem_decDigits h)
  · exact Or.inl h
  · exact Or.inr (mem_decDigits h)
  · exact Or.inl h
  · exact Or.inr (mem_decDigits h)
  · exact Or.inl h
  · exact Or.inr (mem_decDigits h)

theorem map_id_of_mem {f : Char → Char} : ∀ {l : List Char},
    (∀ x ∈ l, f x = x) → l.map f = l := by
  intro l
  induction l with
  | nil => intro _; rfl
  | cons a l ih =>
    intro h
    simp only [List.map_cons, h a (List.mem_cons_self _ _),
      ih (fun x hx => h x (List.mem_cons_of_mem _ hx))]

theorem jsToLower_ipv4Lit (a b c d : Nat) :
    jsToLower (ipv4Lit a b c d) = ipv4Lit a b c d := by
  unfold jsToLower
  apply map_id_of_mem
  intro x hx
  rcases mem_ipv4Lit hx with rfl | ⟨k, hk, rfl⟩
  · decide
  · exact digitChar_toLower hk

theorem ipv4Lit_ne_nil (a b c d : Nat) : ipv4Lit a b c d ≠ [] := by
  unfold ipv4Lit
  cases h : decDigits a with
  | nil => exact absurd h (decDigits_ne_nil a)
  | cons x l => simp

theorem ipv4Lit_not_localhost (a b c d : Nat) :
    (jsToLower (ipv4Lit a b c d) = cs "localhost" ||
      hasSuf (cs ".localhost") (jsToLower (ipv4Lit a b c d))) = false := by
  rw [jsToLower_ipv4Lit]
  apply Bool.or_eq_false_iff.mpr
  constructor
  · apply decide_eq_false
    intro h
    have : 'l' ∈ ipv4Lit a b c d := by rw [h]; decide
    rcases mem_ipv4Lit this with h' | ⟨k, hk, h'⟩
    · exact absurd h' (by decide)
    · revert h'; interval_cases k <;> decide
  · apply Bool.not_eq_true _ |>.mp
    intro h
    have : 't' ∈ ipv4Lit a b c d := hasSuf_mem h 't' (by decide)
    rcases mem_ipv4Lit this with h' | ⟨k, hk, h'⟩
    · exact absurd h' (by decide)
    · revert h'; interval_cases k <;> decide

theorem ipv4PrivateOctets_of_range {a b c d : Nat}
    (hr : a = 10 ∨ a = 127 ∨ (a = 192 ∧ b = 168) ∨
      (a = 172 ∧ 16 ≤ b ∧ b ≤ 31) ∨ (a = 169 ∧ b = 254)) :
    ipv4PrivateOctets [a, b, c, d] = true := by
  simp only [ipv4PrivateOctets, List.getD_cons_zero, List.getD_cons_succ,
    Bool.or_eq_true, Bool.and_eq_true, decide_eq_true_eq]
  tauto

theorem isPrivateHostname_ipv4Private {a b c d : Nat}
    (ha : a < 256) (hb : b < 256) (hc : c < 256) (hd : d < 256)
    (hr : a = 10 ∨ a = 127 ∨ (a = 192 ∧ b = 168) ∨
      (a = 172 ∧ 16 ≤ b ∧ b ≤ 31) ∨ (a = 169 ∧ b = 254)) :
    isPrivateHostname (ipv4Lit a b c d) = true := by
  have hnil := ipv4Lit_ne_nil a b c d
  have h4 : isIPv4 (ipv4Lit a b c d) = true :=
    isIPv4_ipv4Lit (by omega) (by omega) (by omega) (by omega)
  have hip : netIsIP (ipv4Lit a b c d) = 4 := by simp [netIsIP, h4]
  have hsplit : (splitOnChar '.' (ipv4Lit a b c d)).map parseDec = [a, b, c, d] := by
    rw [splitOnChar_ipv4Lit]
    simp [parseDec_decDigits]
  unfold isPrivateHostname
  rw [if_neg (by simpa using hnil)]
  rw [if_neg (by rw [Bool.not_eq_true, ipv4Lit_not_localhost])]
  rw [hip, hsplit, if_pos (by simp [ipv4PrivateOctets_of_range hr])]

theorem isPrivateHostname_localhost {h : List Char}
    (hl : jsToLower h = cs "localhost" ∨
      hasSuf (cs ".localhost") (jsToLower h) = true) :
    isPrivateHostname h = true := by
  have hne : h ≠ [] := by
    intro he
    subst he
    rcases hl with hl | hl
    · exact absurd hl (by decide)
    · exact absurd hl (by decide)
  unfold isPrivateHostname
  rw [if_neg (by simpa using hne)]
  rw [if_pos]
  rcases hl with hl | hl <;> simp [hl]

theorem isPrivateHostname_v6 {h : List Char} (h6 : netIsIP h = 6)
    (hp : hasPref (cs "fc") (jsToLower h) = true ∨
      hasPref (cs "fd") (jsToLower h) = true) :
    isPrivateHostname h = true := by
  have hne : h ≠ [] := by
    intro he
    subst he
    exact absurd h6 (by decide)
  unfold isPrivateHostname
  rw [if_neg (by simpa using hne)]
  by_cases hloc : (decide (jsToLower h = cs "localhost") ||
      hasSuf (cs ".localhost") (jsToLower h)) = true
  · rw [if_pos hloc]
  · rw [if_neg (by simpa using hloc)]
    rw [h6]
    rw [if_neg (by simp)]
    rw [if_pos]
    rcases hp with hp | hp <;> simp [hp]

theorem isPrivateHostname_nonIP {h : List Char} (hne : h ≠ [])
    (h0 : netIsIP h = 0)
    (hloc : ¬(jsToLower h = cs "localhost" ∨
      hasSuf (cs ".localhost") (jsToLower h) = true)) :
    isPrivateHostname h = false := by
  push_neg at hloc
  unfold isPrivateHostname
  rw [if_neg (by simpa using hne)]
  rw [if_neg (by simp [hloc.1, hloc.2])]
  rw [h0]
  rw [if_neg (by simp), if_neg (by simp)]

/-! # Claim theorems -/

/-- Claim C4. `isPrivateHostname` returns true for every literal IPv4
address in `10.0.0.0/8`, `127.0.0.0/8`, `172.16.0.0/12`,
`192.168.0.0/16` and `169.254.0.0/16`; for the IPv6 loopback `::1`; for
every IPv6 literal whose (lowercased) text starts with `fc` or `fd`,
which covers every text form of a unique-local `fc00::/7` address; and
for every hostname equal to `localhost` or ending in the `.localhost`
suffix.  It returns false for `93.184.216.34`, `example.com`, and every
other non-empty hostname that is neither an IP literal nor a
localhost-form name. -/
theorem c4_isPrivateHost_classification :
    (∀ a b c d : Nat, a < 256 → b < 256 → c < 256 → d < 256 →
      (a = 10 ∨ a = 127 ∨ (a = 192 ∧ b = 168) ∨
       (a = 172 ∧ 16 ≤ b ∧ b ≤ 31) ∨ (a = 169 ∧ b = 254)) →
      isPrivateHostname (ipv4Lit a b c d) = true) ∧
    isPrivateHostname (cs "::1") = true ∧
    (∀ h : List Char, netIsIP h = 6 →
      (hasPref (cs "fc") (jsToLower h) = true ∨
       hasPref (cs "fd") (jsToLower h) = true) →
      isPrivateHostname h = true) ∧
    (∀ h : List Char,
      (jsToLower h = cs "localhost" ∨
       hasSuf (cs ".localhost") (jsToLower h) = true) →
      isPrivateHostname h = true) ∧
    (isPrivateHostname (cs "127.0.0.1") = true ∧
     isPrivateHostname (cs "10.1.2.3") = true ∧
     isPrivateHostname (cs "192.168.1.1") = true ∧
     isPrivateHostname (cs "169.254.1.1") = true ∧
     isPrivateHostname (cs "localhost") = true) ∧
    (isPrivateHostname (cs "93.184.216.34") = false ∧
     isPrivateHostname (cs "example.com") = false) ∧
    (∀ h : List Char, h ≠ [] → netIsIP h = 0 →
      ¬(jsToLower h = cs "localhost" ∨
        hasSuf (cs ".localhost") (jsToLower h) = true) →
      isPrivateHostname h = false) := by
  refine ⟨?_, by decide, ?_, ?_, ⟨by decide, by decide, by decide, by decide, by decide⟩,
    ⟨by decide, by decide⟩, ?_⟩
  · intro a b c d ha hb hc hd hr
    exact isPrivateHostname_ipv4Private ha hb hc hd hr
  · intro h h6 hp
    exact isPrivateHostname_v6 h6 hp
  · intro h hl
    exact isPrivateHostname_localhost hl
  · intro h hne h0 hloc
    exact isPrivateHostname_nonIP hne h0 hloc

/-- Witness for C4: the quantified conjuncts applied at `10.1.2.3`,
the IPv6 literal `fd00::1`, the hostname `a.localhost`, and the public
hostname `example.com`. -/
theorem c4_isPrivateHost_classification_witness :
    isPrivateHostname (ipv4Lit 10 1 2 3) = true ∧
    isPrivateHostname (cs "fd00::1") = true ∧
    isPrivateHostname (cs "a.localhost") = true ∧
    isPrivateHostname (cs "example.com") = false :=
  ⟨c4_isPrivateHost_classification.1 10 1 2 3 (by decide) (by decide)
      (by decide) (by decide) (Or.inl rfl),
   c4_isPrivateHost_classification.2.2.1 (cs "fd00::1") (by decide)
      (Or.inr (by decide)),
   c4_isPrivateHost_classification.2.2.2.1 (cs "a.localhost")
      (Or.inr (by decide)),
   c4_isPrivateHost_classification.2.2.2.2.2.2 (cs "example.com")
      (by decide) (by decide) (by decide)⟩

/-- Claim C10. `isPrivateHostname` returns true for the empty hostname
(the JS `!hostname` test is also true for an absent hostname value,
which the embedding likewise represents by `[]`), so the SSRF gate of
the enrichment route rejects any target whose parsed hostname is empty
with the 400 private-host error: the guard fails closed on inputs
outside its private-range tables. -/
theorem c10_empty_hostname_fails_closed :
    isPrivateHostname [] = true ∧
    (∀ rec : URLRec, rec.host = [] →
      hostGuard rec =
        some ⟨400, .json (errObj (cs "URL host is not reachable from the proxy"))⟩) := by
  refine ⟨by decide, ?_⟩
  intro rec hrec
  unfold hostGuard
  rw [hrec]
  rfl

/-- Witness for C10: a record with an empty host is rejected by the
SSRF gate. -/
theorem c10_empty_hostname_fails_closed_witness :
    hostGuard ⟨cs "http", [], none, cs "/x"⟩ =
      some ⟨400, .json (errObj (cs "URL host is not reachable from the proxy"))⟩ :=
  c10_empty_hostname_fails_closed.2 ⟨cs "http", [], none, cs "/x"⟩ rfl

theorem basic_bearer_exclusive {l : List Char}
    (h2 : hasPref (cs "bearer") l = true) : hasPref (cs "basic") l = false := by
  match l with
  | [] => exact absurd h2 (by decide)
  | [a] =>
    show hasPref ('b' :: 'a' :: 's' :: 'i' :: 'c' :: []) [a] = false
    simp [hasPref]
  | a :: b :: rest =>
    have h2' : hasPref ('b' :: 'e' :: 'a' :: 'r' :: 'e' :: 'r' :: []) (a :: b :: rest) = true := h2
    simp only [hasPref, Bool.and_eq_true, decide_eq_true_eq] at h2'
    obtain ⟨-, heb, -⟩ := h2'
    show hasPref ('b' :: 'a' :: 's' :: 'i' :: 'c' :: []) (a :: b :: rest) = false
    subst heb
    simp [hasPref]

theorem schemePayload_bearer_not_basic {header p : List Char}
    (h : schemePayload (cs "bearer") header = some p) :
    schemePayload (cs "basic") header = none := by
  have hbe : hasPref (cs "bearer") (jsToLower header) = true := by
    by_contra hx
    unfold schemePayload at h
    rw [if_neg hx] at h
    exact Option.noConfusion h
  unfold schemePayload
  rw [if_neg (by rw [basic_bearer_exclusive hbe]; simp)]

/-- A Bearer credential whose trimmed payload contains no `:` at all is
rejected as malformed (after the unconditional `auth_token` delete). -/
theorem bearer_no_colon_malformed {header p : List Char} (qp : QP)
    (hsp : schemePayload (cs "bearer") header = some p)
    (hnc : (jsTrim p).contains ':' = false) :
    applyAuthContext header qp =
      (deleteKey (cs "auth_token") qp, .error .malformedBearer) := by
  unfold applyAuthContext authResolve
  rw [schemePayload_bearer_not_basic hsp, hsp]
  simp only []
  rw [if_pos (show (!(jsTrim p).contains ':') = true by rw [hnc]; rfl)]

/-- A Bearer credential whose trimmed payload contains a `:` anywhere
is accepted, whatever the two halves are: the token is placed in the
outbound query and the identity is the text before the first `:`, or
the literal `token` when that text is empty. -/
theorem bearer_with_colon_accepted {header p : List Char} (qp : QP)
    (hsp : schemePayload (cs "bearer") header = some p)
    (hc : (jsTrim p).contains ':' = true) :
    applyAuthContext header qp =
      (setKey (cs "auth_token") (jsTrim p) (deleteKey (cs "auth_token") qp),
       .ok ⟨.tokenInQuery,
            jsOrS ((splitOnChar ':' (jsTrim p)).headD []) (cs "token")⟩) := by
  unfold applyAuthContext authResolve
  rw [schemePayload_bearer_not_basic hsp, hsp]
  simp only []
  rw [if_neg (show ¬((!(jsTrim p).contains ':') = true) by rw [hc]; decide)]

/-- Claim C1 counterexample. The claim expects resolution to fail with
the malformed-bearer error whenever the Bearer payload lacks a
separator splitting it into a non-empty identity and non-empty secret.
The payload `alice:` has no such split (`properColonSplit` is false),
yet resolution succeeds, returning identity `alice` and placing the
whole composite token in the outbound query. -/
theorem c1_bearer_empty_secret_accepted :
    schemePayload (cs "bearer") (cs "Bearer alice:") = some (cs "alice:") ∧
    properColonSplit (jsTrim (cs "alice:")) = false ∧
    applyAuthContext (cs "Bearer alice:") [] =
      ([(cs "auth_token", cs "alice:")], .ok ⟨.tokenInQuery, cs "alice"⟩) :=
  ⟨rfl, by decide, rfl⟩

/-- Claim C1 (amended). Bearer credential resolution fails with
`MalformedBearerCredential` (surfaced as a 401 with the message
`Invalid Bearer authorization header`) exactly when the trimmed Bearer
payload contains no `:` separator at all, both directions universally:
every payload without a `:` is rejected, and every payload containing
a `:` is accepted — even when the identity or secret half is empty —
with the composite token placed in the outbound query and the identity
the text before the first `:` (or the fallback `token` when that text
is empty).  Concretely: `alice:tok123` yields identity `alice`, the
empty-identity payload `:x` is accepted with identity `token`, and the
empty-secret payload `alice:` is accepted with identity `alice`. -/
theorem c1_bearer_missing_separator_rejected :
    (∀ (header p : List Char) (qp : QP),
      schemePayload (cs "bearer") header = some p →
      (jsTrim p).contains ':' = false →
      applyAuthContext header qp =
        (deleteKey (cs "auth_token") qp, .error .malformedBearer)) ∧
    (∀ (header p : List Char) (qp : QP),
      schemePayload (cs "bearer") header = some p →
      (jsTrim p).contains ':' = true →
      applyAuthContext header qp =
        (setKey (cs "auth_token") (jsTrim p) (deleteKey (cs "auth_token") qp),
         .ok ⟨.tokenInQuery,
              jsOrS ((splitOnChar ':' (jsTrim p)).headD []) (cs "token")⟩)) ∧
    (∀ (query : List (List Char × QVal)) (header path : List Char)
       (b : UpstreamBehavior) (conv : List Char → Option Json) (p : List Char),
      schemePayload (cs "bearer") header = some p →
      (jsTrim p).contains ':' = false →
      v1Handler query header path b conv =
        ⟨401, .json (errObj (cs "Invalid Bearer authorization header"))⟩) ∧
    applyAuthContext (cs "Bearer alice:tok123") [] =
      ([(cs "auth_token", cs "alice:tok123")], .ok ⟨.tokenInQuery, cs "alice"⟩) ∧
    applyAuthContext (cs "Bearer :x") [] =
      ([(cs "auth_token", cs ":x")], .ok ⟨.tokenInQuery, cs "token"⟩) ∧
    applyAuthContext (cs "Bearer alice:") [] =
      ([(cs "auth_token", cs "alice:")], .ok ⟨.tokenInQuery, cs "alice"⟩) := by
  refine ⟨fun header p qp hsp hnc => bearer_no_colon_malformed qp hsp hnc,
    fun header p qp hsp hc => bearer_with_colon_accepted qp hsp hc,
    ?_, rfl, rfl, rfl⟩
  intro query header path b conv p hsp hnc
  unfold v1Handler
  rw [bearer_no_colon_malformed (buildSearchParams query) hsp hnc]
  rfl

/-- Witness for C1 (amended): the header `Bearer abc` (payload without
any `:`) is rejected as malformed by both the resolver and the
forwarding route, and the header `Bearer :x` (payload with a `:` but
an empty identity half) is accepted with identity `token`. -/
theorem c1_bearer_missing_separator_rejected_witness :
    applyAuthContext (cs "Bearer abc") [(cs "x", cs "1")] =
      ([(cs "x", cs "1")], .error .malformedBearer) ∧
    applyAuthContext (cs "Bearer :x") [(cs "a", cs "1")] =
      ([(cs "a", cs "1"), (cs "auth_token", cs ":x")],
       .ok ⟨.tokenInQuery, cs "token"⟩) ∧
    v1Handler [] (cs "Bearer abc") (cs "/v1/posts/get") (.responds 200 .null)
        (fun _ => none) =
      ⟨401, .json (errObj (cs "Invalid Bearer authorization header"))⟩ :=
  ⟨c1_bearer_missing_separator_rejected.1 (cs "Bearer abc") (cs "abc")
      [(cs "x", cs "1")] rfl (by decide),
   c1_bearer_missing_separator_rejected.2.1 (cs "Bearer :x") (cs ":x")
      [(cs "a", cs "1")] rfl (by decide),
   c1_bearer_missing_separator_rejected.2.2.1 [] (cs "Bearer abc")
      (cs "/v1/posts/get") (.responds 200 .null) (fun _ => none) (cs "abc")
      rfl (by decide)⟩

theorem deleteKey_idem (k : List Char) (qp : QP) :
    deleteKey k (deleteKey k qp) = deleteKey k qp := by
  unfold deleteKey
  rw [List.filter_filter]
  simp

/-- Claim C2. The inbound legacy `auth_token` query value never reaches
the outbound query: credential resolution is a function of the query
with all `auth_token` entries removed, so two requests identical except
for their inbound `auth_token` value produce identical outbound queries
(and identical resolution results), under every credential scheme and
also when resolution fails. -/
theorem c2_inbound_auth_token_never_forwarded :
    (∀ (header : List Char) (qp₁ qp₂ : QP),
      deleteKey (cs "auth_token") qp₁ = deleteKey (cs "auth_token") qp₂ →
      applyAuthContext header qp₁ = applyAuthContext header qp₂) ∧
    (∀ (header : List Char) (qp : QP),
      (applyAuthContext header qp).1 =
        (applyAuthContext header (deleteKey (cs "auth_token") qp)).1) := by
  constructor
  · intro header qp₁ qp₂ h
    unfold applyAuthContext
    rw [h]
  · intro header qp
    unfold applyAuthContext
    rw [deleteKey_idem]

/-- Witness for C2: two queries differing only in the inbound
`auth_token` value resolve identically, and dropping the client-sent
`auth_token` up front leaves the outbound query unchanged. -/
theorem c2_inbound_auth_token_never_forwarded_witness :
    applyAuthContext (cs "Bearer u:t") [(cs "a", cs "1"), (cs "auth_token", cs "x")] =
      applyAuthContext (cs "Bearer u:t") [(cs "auth_token", cs "y"), (cs "a", cs "1")] ∧
    (applyAuthContext (cs "Bearer u:t") [(cs "a", cs "1"), (cs "auth_token", cs "x")]).1 =
      (applyAuthContext (cs "Bearer u:t")
        (deleteKey (cs "auth_token") [(cs "a", cs "1"), (cs "auth_token", cs "x")])).1 :=
  ⟨c2_inbound_auth_token_never_forwarded.1 (cs "Bearer u:t")
      [(cs "a", cs "1"), (cs "auth_token", cs "x")]
      [(cs "auth_token", cs "y"), (cs "a", cs "1")] (by decide),
   c2_inbound_auth_token_never_forwarded.2 (cs "Bearer u:t")
      [(cs "a", cs "1"), (cs "auth_token", cs "x")]⟩

/-- Claim C3. Whenever the enrichment target URL parses with an http or
https scheme and its hostname classifies as private, the request
terminates with `400 {"error": "URL host is not reachable from the
proxy"}`, whatever the upstream suggestion service or the preview
target would have done — i.e. the response does not depend on either
fetch, which the validation phase never starts.  In particular
`url=http://127.0.0.1/x` yields exactly that response. -/
theorem c3_private_host_no_fetch :
    (∀ (req : SuggestReq) (t : List Char) (rec : URLRec)
       (sb : UpstreamBehavior) (pb : PreviewOutcome),
      getTargetUrl req = some t →
      parseURL t = some rec →
      (urlProtocol rec = cs "http:" ∨ urlProtocol rec = cs "https:") →
      isPrivateHostname rec.host = true →
      suggestHandler req sb pb =
        ⟨400, .json (errObj (cs "URL host is not reachable from the proxy"))⟩) ∧
    (∀ (header : List Char) (sb : UpstreamBehavior) (pb : PreviewOutcome),
      suggestHandler ⟨some (.str (cs "http://127.0.0.1/x")), header⟩ sb pb =
        ⟨400, .json (errObj (cs "URL host is not reachable from the proxy"))⟩) := by
  constructor
  · intro req t rec sb pb hget hparse hproto hpriv
    have ht : t ≠ [] := by
      intro he
      subst he
      exact Option.noConfusion hparse
    have hguard : hostGuard rec =
        some ⟨400, .json (errObj (cs "URL host is not reachable from the proxy"))⟩ := by
      unfold hostGuard
      rw [if_pos hpriv]
    unfold suggestHandler suggestValidate
    simp only [hget, hparse]
    rw [if_neg ht, if_neg (fun hn => hn hproto), hguard]
  · intro header sb pb
    rfl

/-- Witness for C3: the quantified conjunct applied to the concrete
request for `http://127.0.0.1/x`. -/
theorem c3_private_host_no_fetch_witness :
    suggestHandler ⟨some (.str (cs "http://127.0.0.1/x")), cs "Bearer u:t"⟩
        .timesOut (.fulfilled none) =
      ⟨400, .json (errObj (cs "URL host is not reachable from the proxy"))⟩ :=
  c3_private_host_no_fetch.1
    ⟨some (.str (cs "http://127.0.0.1/x")), cs "Bearer u:t"⟩
    (cs "http://127.0.0.1/x")
    ⟨cs "http", cs "127.0.0.1", none, cs "/x"⟩
    .timesOut (.fulfilled none) rfl rfl (Or.inl rfl) (by decide)

/-- Claim C6. A rejected suggestion call is fatal: the merge step yields
the failure's own response — the relayed upstream status, 504 on
timeout, 500 otherwise — and the result is identical for every preview
outcome (the preview result is discarded). -/
theorem c6_suggestion_failure_fatal :
    ∀ (e : AxiosError) (p q : PreviewOutcome),
      mergeResults (.rejected e) p = mergeResults (.rejected e) q ∧
      (mergeResults (.rejected e) p).status =
        (match e with
         | .httpResponse s _ => s
         | .timeout => 504
         | .netOther _ => 500) := by
  intro e p q
  cases e <;> exact ⟨rfl, rfl⟩

/-- Claim C5. Preview records always leave the extractor with status
`fresh`; under that invariant, every enrichment payload satisfies
"previewError present iff previewStatus = error", and when the preview
fetch is rejected while the suggestion call succeeded the response is
`200` with `previewStatus = "error"`, a non-empty `previewError`, and
the suggestion data passed through untouched. -/
theorem c5_previewError_iff_error_status :
    (∀ (doc : Doc) (f o t : List Char) (rec : PreviewRecord),
      extractPreviewMetadata doc f o t = some rec → rec.status = cs "fresh") ∧
    (∀ (J : Json) (p : PreviewOutcome),
      (∀ rec : PreviewRecord, p = .fulfilled (some rec) → rec.status = cs "fresh") →
      ∃ pay : EnrichPayload,
        mergeResults (.fulfilled J) p = ⟨200, .enrich pay⟩ ∧
        pay.suggestions = J ∧
        (pay.previewError.isSome = true ↔ pay.previewStatus = cs "error")) ∧
    (∀ (J : Json) (r : Option (List Char)),
      ∃ m : List Char,
        mergeResults (.fulfilled J) (.rejected r) =
          ⟨200, .enrich ⟨J, none, cs "error", some m⟩⟩ ∧ m ≠ []) := by
  refine ⟨?_, ?_, ?_⟩
  · intro doc f o t rec h
    simp only [extractPreviewMetadata] at h
    split at h
    · exact Option.noConfusion h
    · injection h with h2
      subst h2
      rfl
  · intro J p hp
    cases p with
    | fulfilled popt =>
      cases popt with
      | none =>
        refine ⟨⟨J, none, cs "no_data", none⟩, rfl, rfl, ?_⟩
        constructor
        · intro hx
          have hx' : (none : Option (List Char)).isSome = true := hx
          exact absurd hx' (by decide)
        · intro hx
          have hx' : cs "no_data" = cs "error" := hx
          exact absurd hx' (by decide)
      | some rec =>
        have hs := hp rec rfl
        refine ⟨⟨J, some rec, jsOrS rec.status (cs "fresh"), none⟩, rfl, rfl, ?_⟩
        rw [hs]
        constructor
        · intro hx
          have hx' : (none : Option (List Char)).isSome = true := hx
          exact absurd hx' (by decide)
        · intro hx
          have hx' : jsOrS (cs "fresh") (cs "fresh") = cs "error" := hx
          exact absurd hx' (by decide)
    | rejected r =>
      refine ⟨_, rfl, rfl, ⟨fun _ => rfl, fun _ => rfl⟩⟩
  · intro J r
    cases r with
    | none => exact ⟨cs "Failed to fetch preview metadata", rfl, by decide⟩
    | some m =>
      by_cases hm : m = []
      · subst hm
        exact ⟨cs "Failed to fetch preview metadata", rfl, by decide⟩
      · refine ⟨m, ?_, hm⟩
        show (⟨200, .enrich ⟨J, none, cs "error", some (jsOrS m (cs "Failed to fetch preview metadata"))⟩⟩ : Response) = _
        unfold jsOrS
        rw [if_neg hm]

/-- Witness for C5: the invariant conjunct applied with a rejected
preview outcome (whose hypothesis is vacuous) alongside the concrete
rejected-preview scenario. -/
theorem c5_previewError_iff_error_status_witness :
    (∃ pay : EnrichPayload,
      mergeResults (.fulfilled .null) (.rejected (some (cs "timeout of 5000ms exceeded"))) =
        ⟨200, .enrich pay⟩ ∧
      pay.suggestions = .null ∧
      (pay.previewError.isSome = true ↔ pay.previewStatus = cs "error")) ∧
    (∃ m : List Char,
      mergeResults (.fulfilled .null) (.rejected (some (cs "timeout of 5000ms exceeded"))) =
        ⟨200, .enrich ⟨.null, none, cs "error", some m⟩⟩ ∧ m ≠ []) :=
  ⟨c5_previewError_iff_error_status.2.1 .null
      (.rejected (some (cs "timeout of 5000ms exceeded")))
      (fun _rec h => PreviewOutcome.noConfusion h),
   c5_previewError_iff_error_status.2.2 .null
      (some (cs "timeout of 5000ms exceeded"))⟩

/-- Inverting a successful extraction: the URL-valued fields of the
returned record are exactly the values computed by the canonical-URL,
image and favicon pipelines. -/
theorem extract_fields {doc : Doc} {f o t : List Char} {rec : PreviewRecord}
    (h : extractPreviewMetadata doc f o t = some rec) :
    rec.url = canonicalUrlOf doc f o ∧
    rec.imageUrl = imageUrlOf doc f o ∧
    rec.faviconUrl =
      resolveAbsoluteUrl (jsOrS (canonicalUrlOf doc f o) (jsOrS f o)) (selectFavicon doc) := by
  simp only [extractPreviewMetadata] at h
  split at h
  · exact Option.noConfusion h
  · injection h with h2
    subst h2
    exact ⟨rfl, rfl, rfl⟩

/-- Claim C7 counterexample. On the document containing only
`<meta property="og:title" content="X">`, extraction (with the final
URL `https://example.com/article`) yields `title = "X"` but the
optional `siteDomain` field is *present* (`example.com`, derived from
the final URL), contradicting "every other optional field absent". -/
theorem c7_og_title_only_siteDomain_present :
    (extractPreviewMetadata ogTitleOnlyDoc (cs "https://example.com/article")
        (cs "https://example.com/article") (cs "T")).bind (fun r => r.title) =
      some (cs "X") ∧
    (extractPreviewMetadata ogTitleOnlyDoc (cs "https://example.com/article")
        (cs "https://example.com/article") (cs "T")).bind (fun r => r.siteDomain) =
      some (cs "example.com") :=
  ⟨rfl, rfl⟩

/-- Claim C7 (amended). Metadata extraction returns absent exactly when
the title chain, the description chain, and the resolved image URL are
all absent; on the og:title-only document (final URL
`https://example.com/article`) it returns a record with `title = "X"`,
every document-derived optional field absent, and `siteDomain` present
(derived from the final URL) — and the document is not classified as
no-data. -/
theorem c7_absent_iff_no_title_description_image :
    (∀ (doc : Doc) (f o t : List Char),
      extractPreviewMetadata doc f o t = none ↔
        (titleOf doc = none ∧ descriptionOf doc = none ∧ imageUrlOf doc f o = none)) ∧
    extractPreviewMetadata ogTitleOnlyDoc (cs "https://example.com/article")
        (cs "https://example.com/article") (cs "T") =
      some ⟨cs "https://example.com/article", some (cs "X"), none, none, none,
            none, none, some (cs "example.com"), none, none, none, cs "T",
            cs "fresh"⟩ := by
  constructor
  · intro doc f o t
    simp only [extractPreviewMetadata]
    split
    · rename_i hc
      simpa using hc
    · rename_i hc
      simpa using hc
  · rfl

/-- Claim C8. The record's canonical `url` follows the priority order
link-canonical → Open-Graph URL → social-card URL (the winning chain
value resolved against the final fetch URL) → final fetch URL →
originally requested URL; image and favicon references are resolved
against the canonical URL by standard relative-URL resolution
(`/img/a.png` against `https://example.com/article` gives
`https://example.com/img/a.png`), and a resolution failure yields an
absent field rather than an error. -/
theorem c8_canonical_priority_and_resolution :
    (∀ (doc : Doc) (f o t : List Char) (rec : PreviewRecord) (v u : List Char),
      extractPreviewMetadata doc f o t = some rec →
      pickMetaValue doc (.linkRel (cs "canonical") none) defaultPrefs = some v →
      resolveAbsoluteUrl f (some v) = some u →
      rec.url = u) ∧
    (∀ (doc : Doc) (f o t : List Char) (rec : PreviewRecord) (v u : List Char),
      extractPreviewMetadata doc f o t = some rec →
      pickMetaValue doc (.linkRel (cs "canonical") none) defaultPrefs = none →
      pickMetaValue doc (.metaProp (cs "og:url")) defaultPrefs = some v →
      resolveAbsoluteUrl f (some v) = some u →
      rec.url = u) ∧
    (∀ (doc : Doc) (f o t : List Char) (rec : PreviewRecord) (v u : List Char),
      extractPreviewMetadata doc f o t = some rec →
      pickMetaValue doc (.linkRel (cs "canonical") none) defaultPrefs = none →
      pickMetaValue doc (.metaProp (cs "og:url")) defaultPrefs = none →
      pickMetaValue doc (.metaName (cs "twitter:url")) defaultPrefs = some v →
      resolveAbsoluteUrl f (some v) = some u →
      rec.url = u) ∧
    (∀ (doc : Doc) (f o t : List Char) (rec : PreviewRecord),
      extractPreviewMetadata doc f o t = some rec →
      resolveAbsoluteUrl f (canonicalChainOf doc) = none →
      rec.url = jsOrS f o) ∧
    (∀ (doc : Doc) (f o t : List Char) (rec : PreviewRecord),
      extractPreviewMetadata doc f o t = some rec →
      rec.imageUrl = resolveAbsoluteUrl rec.url (rawImageOf doc)) ∧
    resolveAbsoluteUrl (cs "https://example.com/article") (some (cs "/img/a.png")) =
      some (cs "https://example.com/img/a.png") ∧
    (∀ (doc : Doc) (f o t : List Char) (rec : PreviewRecord),
      extractPreviewMetadata doc f o t = some rec →
      rec.url ≠ [] →
      rec.faviconUrl = resolveAbsoluteUrl rec.url (selectFavicon doc)) := by
  refine ⟨?_, ?_, ?_, ?_, ?_, rfl, ?_⟩
  · intro doc f o t rec v u hext hpick hres
    rw [(extract_fields hext).1]
    unfold canonicalUrlOf canonicalChainOf
    rw [hpick]
    simp only [jsOrO]
    rw [hres]
  · intro doc f o t rec v u hext hnone hpick hres
    rw [(extract_fields hext).1]
    unfold canonicalUrlOf canonicalChainOf
    rw [hnone, hpick]
    simp only [jsOrO]
    rw [hres]
  · intro doc f o t rec v u hext hn1 hn2 hpick hres
    rw [(extract_fields hext).1]
    unfold canonicalUrlOf canonicalChainOf
    rw [hn1, hn2, hpick]
    simp only [jsOrO]
    rw [hres]
  · intro doc f o t rec hext hres
    rw [(extract_fields hext).1]
    unfold canonicalUrlOf
    rw [hres]
  · intro doc f o t rec hext
    rw [(extract_fields hext).2.1, (extract_fields hext).1]
    rfl
  · intro doc f o t rec hext hne
    rw [(extract_fields hext).2.2, (extract_fields hext).1]
    rw [(extract_fields hext).1] at hne
    unfold jsOrS
    rw [if_neg hne]

/-- Witness for C8: each quantified conjunct applied to a concrete
document (canonical link, og:url, twitter:url, no chain hit), all
against the final URL `https://example.com/article`. -/
theorem c8_canonical_priority_and_resolution_witness :
    ((extractPreviewMetadata canonLinkDoc (cs "https://example.com/article")
        (cs "https://example.com/article") (cs "T")).map (fun r => r.url) =
      some (cs "https://example.com/canon")) ∧
    ((extractPreviewMetadata ogUrlDoc (cs "https://example.com/article")
        (cs "https://example.com/article") (cs "T")).map (fun r => r.url) =
      some (cs "https://example.com/og")) ∧
    ((extractPreviewMetadata twitterUrlDoc (cs "https://example.com/article")
        (cs "https://example.com/article") (cs "T")).map (fun r => r.url) =
      some (cs "https://example.com/tw")) ∧
    ((extractPreviewMetadata ogTitleOnlyDoc (cs "https://example.com/article")
        (cs "https://example.com/article") (cs "T")).map (fun r => r.url) =
      some (cs "https://example.com/article")) ∧
    ((extractPreviewMetadata ogTitleOnlyDoc (cs "https://example.com/article")
        (cs "https://example.com/article") (cs "T")).map (fun r => r.imageUrl) =
      some none) ∧
    ((extractPreviewMetadata ogTitleOnlyDoc (cs "https://example.com/article")
        (cs "https://example.com/article") (cs "T")).map (fun r => r.faviconUrl) =
      some none) := by
  refine ⟨?_, ?_, ?_, ?_, ?_, ?_⟩
  · cases hx : extractPreviewMetadata canonLinkDoc (cs "https://example.com/article")
        (cs "https://example.com/article") (cs "T") with
    | none => exact absurd hx (by decide)
    | some R =>
      show some R.url = some (cs "https://example.com/canon")
      exact congrArg some
        (c8_canonical_priority_and_resolution.1 canonLinkDoc _ _ _ R
          (cs "/canon") _ hx rfl rfl)
  · cases hx : extractPreviewMetadata ogUrlDoc (cs "https://example.com/article")
        (cs "https://example.com/article") (cs "T") with
    | none => exact absurd hx (by decide)
    | some R =>
      show some R.url = some (cs "https://example.com/og")
      exact congrArg some
        (c8_canonical_priority_and_resolution.2.1 ogUrlDoc _ _ _ R
          (cs "/og") _ hx rfl rfl rfl)
  · cases hx : extractPreviewMetadata twitterUrlDoc (cs "https://example.com/article")
        (cs "https://example.com/article") (cs "T") with
    | none => exact absurd hx (by decide)
    | some R =>
      show some R.url = some (cs "https://example.com/tw")
      exact congrArg some
        (c8_canonical_priority_and_resolution.2.2.1 twitterUrlDoc _ _ _ R
          (cs "/tw") _ hx rfl rfl rfl rfl)
  · cases hx : extractPreviewMetadata ogTitleOnlyDoc (cs "https://example.com/article")
        (cs "https://example.com/article") (cs "T") with
    | none => exact absurd hx (by decide)
    | some R =>
      show some R.url = some (cs "https://example.com/article")
      exact congrArg some
        (c8_canonical_priority_and_resolution.2.2.2.1 ogTitleOnlyDoc _ _ _ R hx rfl)
  · cases hx : extractPreviewMetadata ogTitleOnlyDoc (cs "https://example.com/article")
        (cs "https://example.com/article") (cs "T") with
    | none => exact absurd hx (by decide)
    | some R =>
      show some R.imageUrl = some none
      rw [c8_canonical_priority_and_resolution.2.2.2.2.1 ogTitleOnlyDoc _ _ _ R hx]
      rfl
  · cases hx : extractPreviewMetadata ogTitleOnlyDoc (cs "https://example.com/article")
        (cs "https://example.com/article") (cs "T") with
    | none => exact absurd hx (by decide)
    | some R =>
      have hurl : R.url = cs "https://example.com/article" :=
        c8_canonical_priority_and_resolution.2.2.2.1 ogTitleOnlyDoc _ _ _ R hx rfl
      have hne : R.url ≠ [] := by
        rw [hurl]
        decide
      show some R.faviconUrl = some none
      rw [c8_canonical_priority_and_resolution.2.2.2.2.2.2 ogTitleOnlyDoc _ _ _ R hx hne]
      rfl

/-- Claim C9 counterexample. An upstream 404 whose body is the plain
string `not found` is not relayed verbatim: the forwarding route
returns status 404 with the wrapped JSON body `{error: "not found"}`
(axios rejects non-2xx responses, and the catch block wraps them), so
"the upstream body is relayed verbatim" fails for statuses outside
2xx. -/
theorem c9_non2xx_body_wrapped :
    v1Handler [] (cs "Bearer u:t") (cs "/v1/posts/get")
        (.responds 404 (.str (cs "not found"))) (fun _ => none) =
      ⟨404, .json (errObj (cs "not found"))⟩ ∧
    v1Handler [] (cs "Bearer u:t") (cs "/v1/posts/get")
        (.responds 404 (.str (cs "not found"))) (fun _ => none) ≠
      ⟨404, .send (.str (cs "not found"))⟩ := by
  constructor
  · rfl
  · intro h
    exact (RespBody.noConfusion (congrArg Response.body h) : False)

/-- Claim C9 (amended). On `GET /v1/*`: a 2xx upstream status other than
200 relays the body verbatim with the same status; a non-2xx upstream
status is relayed with the same status code but the body wrapped as
`{error: <string body, or its error field, or "API request failed">}`;
an upstream timeout yields 504; credential failures yield 401 with the
resolver's message; and on a 200 response a non-JSON (string) payload
is converted through the XML collaborator before being returned (a
conversion failure yields 500). -/
theorem c9_forwarding_contract :
    (∀ (q : List (List Char × QVal)) (h p : List Char) (s : Nat) (d : Json)
       (conv : List Char → Option Json) (qp' : QP) (ctx : AuthCtx),
      applyAuthContext h (buildSearchParams q) = (qp', .ok ctx) →
      200 ≤ s → s < 300 → s ≠ 200 →
      v1Handler q h p (.responds s d) conv = ⟨s, .send d⟩) ∧
    (∀ (q : List (List Char × QVal)) (h p : List Char) (s : Nat) (d : Json)
       (conv : List Char → Option Json) (qp' : QP) (ctx : AuthCtx),
      applyAuthContext h (buildSearchParams q) = (qp', .ok ctx) →
      ¬(200 ≤ s ∧ s < 300) →
      v1Handler q h p (.responds s d) conv =
        ⟨s, .json (.obj [(cs "error", upstreamErrJson d)])⟩) ∧
    (∀ (q : List (List Char × QVal)) (h p : List Char)
       (conv : List Char → Option Json) (qp' : QP) (ctx : AuthCtx),
      applyAuthContext h (buildSearchParams q) = (qp', .ok ctx) →
      v1Handler q h p .timesOut conv =
        ⟨504, .json (errObj (cs "Gateway timeout"))⟩) ∧
    (∀ (q : List (List Char × QVal)) (h p : List Char) (b : UpstreamBehavior)
       (conv : List Char → Option Json) (qp' : QP) (e : AuthError),
      applyAuthContext h (buildSearchParams q) = (qp', .error e) →
      v1Handler q h p b conv = ⟨401, .json (errObj (authErrorMessage e))⟩) ∧
    (∀ (q : List (List Char × QVal)) (h p : List Char) (d : Json)
       (conv : List Char → Option Json) (qp' : QP) (ctx : AuthCtx),
      applyAuthContext h (buildSearchParams q) = (qp', .ok ctx) →
      v1Handler q h p (.responds 200 d) conv =
        (if (formatIsJson q || jsTypeofObject d) = true then ⟨200, .json d⟩
         else
           match d with
           | .str xml =>
             (match conv xml with
              | some j => ⟨200, .json j⟩
              | none => ⟨500, .json (errObj (cs "Failed to parse XML response"))⟩)
           | _ => ⟨500, .json (errObj (cs "Failed to parse XML response"))⟩)) := by
  refine ⟨?_, ?_, ?_, ?_, ?_⟩
  · intro q h p s d conv qp' ctx hauth h200 h300 hne
    unfold v1Handler
    rw [hauth]
    simp only []
    rw [if_neg (fun hn => hn ⟨h200, h300⟩), if_pos hne]
  · intro q h p s d conv qp' ctx hauth hno
    unfold v1Handler
    rw [hauth]
    simp only []
    rw [if_pos hno]
  · intro q h p conv qp' ctx hauth
    unfold v1Handler
    rw [hauth]
  · intro q h p b conv qp' e hauth
    unfold v1Handler
    rw [hauth]
  · intro q h p d conv qp' ctx hauth
    unfold v1Handler
    rw [hauth]
    simp only []
    rw [if_neg (fun hn => hn ⟨by omega, by omega⟩), if_neg (fun hx => hx rfl)]

/-- Witness for C9 (amended): the five conjuncts applied with the
concrete Bearer credential `u:t` (or a missing header for the 401
case) and concrete upstream outcomes 201, 404, timeout, and 200. -/
theorem c9_forwarding_contract_witness :
    v1Handler [] (cs "Bearer u:t") (cs "/v1/posts/get")
        (.responds 201 (.str (cs "x"))) (fun _ => none) =
      ⟨201, .send (.str (cs "x"))⟩ ∧
    v1Handler [] (cs "Bearer u:t") (cs "/v1/posts/get")
        (.responds 404 (.str (cs "not found"))) (fun _ => none) =
      ⟨404, .json (.obj [(cs "error", .str (cs "not found"))])⟩ ∧
    v1Handler [] (cs "Bearer u:t") (cs "/v1/posts/get") .timesOut (fun _ => none) =
      ⟨504, .json (errObj (cs "Gateway timeout"))⟩ ∧
    v1Handler [] [] (cs "/v1/posts/get") (.responds 200 .null) (fun _ => none) =
      ⟨401, .json (errObj (cs "Authorization header required"))⟩ ∧
    v1Handler [] (cs "Bearer u:t") (cs "/v1/posts/get")
        (.responds 200 (.str (cs "<posts/>"))) (fun _ => some .null) =
      ⟨200, .json .null⟩ := by
  refine ⟨?_, ?_, ?_, ?_, ?_⟩
  · exact c9_forwarding_contract.1 [] (cs "Bearer u:t") (cs "/v1/posts/get")
      201 (.str (cs "x")) (fun _ => none) [(cs "auth_token", cs "u:t")]
      ⟨.tokenInQuery, cs "u"⟩ rfl (by omega) (by omega) (by omega)
  · exact c9_forwarding_contract.2.1 [] (cs "Bearer u:t") (cs "/v1/posts/get")
      404 (.str (cs "not found")) (fun _ => none) [(cs "auth_token", cs "u:t")]
      ⟨.tokenInQuery, cs "u"⟩ rfl (by omega)
  · exact c9_forwarding_contract.2.2.1 [] (cs "Bearer u:t") (cs "/v1/posts/get")
      (fun _ => none) [(cs "auth_token", cs "u:t")] ⟨.tokenInQuery, cs "u"⟩ rfl
  · exact c9_forwarding_contract.2.2.2.1 [] [] (cs "/v1/posts/get")
      (.responds 200 .null) (fun _ => none) [] .missing rfl
  · rw [c9_forwarding_contract.2.2.2.2 [] (cs "Bearer u:t") (cs "/v1/posts/get")
      (.str (cs "<posts/>")) (fun _ => some .null) [(cs "auth_token", cs "u:t")]
      ⟨.tokenInQuery, cs "u"⟩ rfl]
    rfl

end PB
